import Mathlib

/-!
Verification of the pod-mutating admission webhook in pkg/webhook/hook.go of
the tensile-kube repository. The Go code is shallowly embedded: Go maps become
association lists, Go slices become lists, nil-able fields become Option, and
the one place where the code performs positional slice surgery that can run
out of range is modelled with an Option-valued splice, where none corresponds
to a Go runtime panic (negative slice bound) or to a read past the current
slice length (behaviour that depends on spare capacity). Go checks of the
form len(s) == 0 on strings are rendered as equality with the empty string.
-/

set_option autoImplicit false

namespace Hook

/-! ## Well-known constants

Modelled from the spec: the util package of the repository is not part of
src/; section 6 of the spec lists the well-known string constants (annotation
keys for selected-node, backup-constraints, virtual-pod marker, descheduler
marker; taint keys for not-ready and unreachable). The concrete values below
are representative; the claims depend only on which constants coincide.
-/

def TaintNodeNotReady : String := "node.kubernetes.io/not-ready"

def TaintNodeUnreachable : String := "node.kubernetes.io/unreachable"

def SelectedNodeKey : String := "volume.kubernetes.io/selected-node"

def SelectorKey : String := "clusterSelector"

def CreatedbyDescheduler : String := "create-by-descheduler"

def VirtualPodKey : String := "virtual-pod"

def TolerationOpExists : String := "Exists"

def TaintEffectNoExecute : String := "NoExecute"

/-! ## Core Kubernetes data model (the subset read or written by hook.go) -/

/-- corev1.Toleration, with all fields the Go struct carries. -/
structure Toleration where
  key : String
  operator : String
  value : String
  effect : String
  tolerationSeconds : Option Int
deriving DecidableEq, Repr

/-- corev1.NodeSelectorRequirement. -/
structure NodeSelectorRequirement where
  key : String
  operator : String
  values : List String
deriving DecidableEq, Repr

/-- corev1.NodeSelectorTerm: a conjunction of match expressions and match fields. -/
structure NodeSelectorTerm where
  matchExpressions : List NodeSelectorRequirement
  matchFields : List NodeSelectorRequirement
deriving DecidableEq, Repr

/-- corev1.NodeSelector: a disjunction of terms. -/
structure NodeSelector where
  nodeSelectorTerms : List NodeSelectorTerm
deriving DecidableEq, Repr

/-- corev1.PreferredSchedulingTerm. hook.go never reads or writes preferred
terms; they are carried so that the frame claims can speak about them. -/
structure PreferredSchedulingTerm where
  weight : Int
  preference : NodeSelectorTerm
deriving DecidableEq, Repr

/-- corev1.NodeAffinity. -/
structure NodeAffinity where
  requiredDuringSchedulingIgnoredDuringExecution : Option NodeSelector
  preferredDuringSchedulingIgnoredDuringExecution : List PreferredSchedulingTerm
deriving DecidableEq, Repr

/-- corev1.PodAffinity. hook.go never inspects its contents, so it is carried
as an abstract payload; equality is all the claims need. -/
structure PodAffinity where
  requiredTerms : List String
  preferredTerms : List String
deriving DecidableEq, Repr

/-- corev1.PodAntiAffinity, carried abstractly for the same reason. -/
structure PodAntiAffinity where
  requiredTerms : List String
  preferredTerms : List String
deriving DecidableEq, Repr

/-- corev1.Affinity. -/
structure Affinity where
  nodeAffinity : Option NodeAffinity
  podAffinity : Option PodAffinity
  podAntiAffinity : Option PodAntiAffinity
deriving DecidableEq, Repr

/-- Modelled from the spec: util.ClustersNodeSelection, the backup-constraint
payload of section 3: a record of node selector, affinity and tolerations as
they were immediately before stripping. -/
structure ClustersNodeSelection where
  nodeSelector : List (String × String)
  affinity : Option Affinity
  tolerations : Option (List Toleration)
deriving DecidableEq, Repr

/-- A value stored in a pod annotation map: either an ordinary string or the
serialized backup-constraint payload. JSON serialization is an external
collaborator (spec section 6); it is modelled as the injective embedding of
the payload into the value type. -/
inductive AnnoVal where
  | str : String → AnnoVal
  | cns : ClustersNodeSelection → AnnoVal
deriving DecidableEq, Repr

/-- The persistent-volume-claim source of a volume. -/
structure PVCSource where
  claimName : String
deriving DecidableEq, Repr

/-- corev1.Volume, restricted to the fields hook.go reads. -/
structure Volume where
  name : String
  persistentVolumeClaim : Option PVCSource
deriving DecidableEq, Repr

/-- The claim object returned by the external claim lookup (spec section 6):
it exposes an annotation map. -/
structure PersistentVolumeClaim where
  annotations : Option (List (String × String))
deriving DecidableEq, Repr

/-- Object metadata: the fields of the pod hook.go reads or writes. A nil Go
map is Option.none; a present map is an association list. The owner
references are carried as the list of owner UIDs. -/
structure ObjectMeta where
  name : String
  namespaceName : String
  labels : Option (List (String × String))
  annotations : Option (List (String × AnnoVal))
  ownerReferences : List String
deriving DecidableEq, Repr

/-- The pod spec fields hook.go reads or writes. -/
structure PodSpec where
  nodeName : String
  nodeSelector : Option (List (String × String))
  affinity : Option Affinity
  tolerations : Option (List Toleration)
  volumes : Option (List Volume)
deriving DecidableEq, Repr

/-- corev1.Pod, restricted to the fields hook.go touches. -/
structure Pod where
  meta : ObjectMeta
  spec : PodSpec
deriving DecidableEq, Repr

/-! ## Map helpers (Go map reads return the zero value for absent keys) -/

/-- Go map read m[k] on a map[string]string: the value, or "" when absent. -/
def mapLookup (m : List (String × String)) (k : String) : String :=
  match m.find? (fun kv => kv.1 == k) with
  | none => ""
  | some kv => kv.2

/-- Stand-in for the JSON encoding of the backup payload; the real encoding
is a nonempty string produced by the external serializer. -/
def serializedPayloadString : String := "serialized-constraints"

/-- Reading an annotation value as the string Go would see. -/
def annoValString : AnnoVal → String
  | AnnoVal.str s => s
  | AnnoVal.cns _ => serializedPayloadString

/-- Go map read on the annotation map. -/
def annoFind (m : List (String × AnnoVal)) (k : String) : Option AnnoVal :=
  match m.find? (fun kv => kv.1 == k) with
  | none => none
  | some kv => some kv.2

/-- Go map read m[k] on the annotation map, as a string ("" when absent). -/
def annoString (m : List (String × AnnoVal)) (k : String) : String :=
  match annoFind m k with
  | none => ""
  | some v => annoValString v

/-- Go map write m[k] = v on the annotation map. -/
def annoSet (m : List (String × AnnoVal)) (k : String) (v : AnnoVal) :
    List (String × AnnoVal) :=
  if m.any (fun kv => kv.1 == k) then
    m.map (fun kv => if kv.1 == k then (k, v) else kv)
  else m ++ [(k, v)]

/-- pod.Labels[k] as Go reads it: "" when the label map is nil or lacks k. -/
def podLabelValue (pod : Pod) (k : String) : String :=
  match pod.meta.labels with
  | none => ""
  | some ls => mapLookup ls k

/-- pod.Annotations[k] guarded by the nil check hook.go performs. -/
def podAnnoString (pod : Pod) (k : String) : String :=
  match pod.meta.annotations with
  | none => ""
  | some m => annoString m k

/-! ## Tolerations (hook.go lines 44-56, 239-267) -/

/-- The desired toleration for the not-ready taint (hook.go lines 45-49). -/
def defaultNotReadyToleration : Toleration :=
  { key := TaintNodeNotReady, operator := TolerationOpExists, value := "",
    effect := TaintEffectNoExecute, tolerationSeconds := none }

/-- The desired toleration for the unreachable taint (hook.go lines 50-54). -/
def defaultUnreachableToleration : Toleration :=
  { key := TaintNodeUnreachable, operator := TolerationOpExists, value := "",
    effect := TaintEffectNoExecute, tolerationSeconds := none }

/-- Lookup in the two-entry desiredMap of hook.go lines 44-55. -/
def desiredMapFind (k : String) : Option Toleration :=
  if k == TaintNodeNotReady then some defaultNotReadyToleration
  else if k == TaintNodeUnreachable then some defaultUnreachableToleration
  else none

/-- The loop of getPodTolerations (hook.go lines 242-255): walk the list once,
replace an entry whose key is in desiredMap by the desired entry, pass every
other entry through, and record whether either well-known key was seen. -/
def tolProcess : List Toleration → List Toleration × Bool × Bool
  | [] => ([], false, false)
  | t :: rest =>
    let r := tolProcess rest
    let entry := match desiredMapFind t.key with
      | some d => d
      | none => t
    (entry :: r.1,
     ((t.key == TaintNodeNotReady) || r.2.1),
     ((t.key == TaintNodeUnreachable) || r.2.2))

/-- hook.go lines 259-267. -/
def addDefaultPodTolerations (tolerations : List Toleration)
    (notReady unSchedulable : Bool) : List Toleration :=
  let t1 := if !notReady then tolerations ++ [defaultNotReadyToleration] else tolerations
  if !unSchedulable then t1 ++ [defaultUnreachableToleration] else t1

/-- hook.go lines 239-257 (a nil toleration slice ranges as empty). -/
def getPodTolerations (pod : Pod) : List Toleration :=
  let r := tolProcess (pod.spec.tolerations.getD [])
  addDefaultPodTolerations r.1 r.2.1 r.2.2

/-- The toleration rewrite as the spec words it (section 4.2): substitute the
canonical default for either well-known key, pass everything else through. -/
def canonicalFor (t : Toleration) : Toleration :=
  if t.key == TaintNodeNotReady then defaultNotReadyToleration
  else if t.key == TaintNodeUnreachable then defaultUnreachableToleration
  else t

/-- The full normalization as the spec words it: one mapped pass, then the
missing canonical defaults appended at the end, not-ready before unreachable. -/
def tolerationNormalizeSpec (ts : List Toleration) : List Toleration :=
  ts.map canonicalFor
    ++ (if ts.any (fun t => t.key == TaintNodeNotReady) then [] else [defaultNotReadyToleration])
    ++ (if ts.any (fun t => t.key == TaintNodeUnreachable) then [] else [defaultUnreachableToleration])

theorem taintKeysDistinct : TaintNodeUnreachable ≠ TaintNodeNotReady := by decide

theorem tolProcess_eq (ts : List Toleration) :
    tolProcess ts = (ts.map canonicalFor,
      ts.any (fun t => t.key == TaintNodeNotReady),
      ts.any (fun t => t.key == TaintNodeUnreachable)) := by
  induction ts with
  | nil => simp [tolProcess]
  | cons t rest ih =>
    simp only [tolProcess, ih, List.map_cons, List.any_cons]
    refine Prod.ext ?_ (Prod.ext ?_ ?_) <;>
      simp only [canonicalFor, desiredMapFind] <;>
      by_cases h1 : t.key = TaintNodeNotReady <;>
      by_cases h2 : t.key = TaintNodeUnreachable <;>
      simp [h1, h2, taintKeysDistinct]

/-! ## Node selector rewrite (hook.go lines 269-289) -/

/-- The ignore-label map of hook.go (labelMap[v] = v for each ignore key):
reading it returns the key itself when present, and the zero value ""
when absent. An ignore key that itself is "" therefore reads back as "". -/
def labelMapLookup (ignoreLabels : List String) (k : String) : String :=
  if ignoreLabels.contains k then k else ""

/-- injectNodeSelector (hook.go lines 270-289). The Go loop visits every
entry of the map once; an entry whose key reads back nonempty from labelMap
is left in the live map, every other entry is deleted from the live map and
put into the returned map. The pair is (live map after deletions, returned
final map); nodeSelectorBackup is computed by the source but never used. -/
def injectNodeSelector : List (String × String) → List String →
    List (String × String) × List (String × String)
  | [], _ => ([], [])
  | kv :: rest, ignoreLabels =>
    let r := injectNodeSelector rest ignoreLabels
    if labelMapLookup ignoreLabels kv.1 ≠ "" then (kv :: r.1, r.2)
    else (r.1, kv :: r.2)

theorem labelMapLookup_ne_empty (ignoreLabels : List String) (k : String)
    (h : "" ∉ ignoreLabels) :
    (labelMapLookup ignoreLabels k ≠ "") ↔ k ∈ ignoreLabels := by
  unfold labelMapLookup
  by_cases hm : k ∈ ignoreLabels
  · have hc : ignoreLabels.contains k = true := by simpa using hm
    rw [if_pos hc]
    constructor
    · intro _; exact hm
    · intro _ hk; exact h (hk ▸ hm)
  · have hc : ¬(ignoreLabels.contains k = true) := by simpa using hm
    rw [if_neg hc]
    simp [hm]

theorem injectNodeSelector_fst (s : List (String × String)) (ignoreLabels : List String)
    (h : "" ∉ ignoreLabels) :
    (injectNodeSelector s ignoreLabels).1
      = s.filter (fun kv => decide (kv.1 ∈ ignoreLabels)) := by
  induction s with
  | nil => rfl
  | cons kv rest ih =>
    by_cases hm : kv.1 ∈ ignoreLabels
    · have hk : labelMapLookup ignoreLabels kv.1 ≠ "" :=
        (labelMapLookup_ne_empty ignoreLabels kv.1 h).mpr hm
      simp [injectNodeSelector, hk, hm, ih]
    · have hk : ¬labelMapLookup ignoreLabels kv.1 ≠ "" := by
        intro hne; exact hm ((labelMapLookup_ne_empty ignoreLabels kv.1 h).mp hne)
      simp [injectNodeSelector, hk, hm, ih]

theorem injectNodeSelector_snd (s : List (String × String)) (ignoreLabels : List String)
    (h : "" ∉ ignoreLabels) :
    (injectNodeSelector s ignoreLabels).2
      = s.filter (fun kv => !(decide (kv.1 ∈ ignoreLabels))) := by
  induction s with
  | nil => rfl
  | cons kv rest ih =>
    by_cases hm : kv.1 ∈ ignoreLabels
    · have hk : labelMapLookup ignoreLabels kv.1 ≠ "" :=
        (labelMapLookup_ne_empty ignoreLabels kv.1 h).mpr hm
      simp [injectNodeSelector, hk, hm, ih]
    · have hk : ¬labelMapLookup ignoreLabels kv.1 ≠ "" := by
        intro hne; exact hm ((labelMapLookup_ne_empty ignoreLabels kv.1 h).mp hne)
      simp [injectNodeSelector, hk, hm, ih]

/-! ## Affinity rewrite (hook.go lines 291-362)

The deletion statements of injectAffinity rewrite the live requirement list
with the Go expression append(l[:i], l[j:]...). The result is l.take i ++
l.drop j as long as both bounds lie within the current length; a negative
bound is a Go runtime panic, and a bound beyond the current length reads
spare capacity whose contents depend on the allocator. Both abnormal cases
are mapped to none.
-/

def goSplice {α : Type} (l : List α) (i j : Int) : Option (List α) :=
  if 0 ≤ i ∧ i ≤ (l.length : Int) ∧ 0 ≤ j ∧ j ≤ (l.length : Int) then
    some (l.take i.toNat ++ l.drop j.toNat)
  else none

/-- The match-expression loop of injectAffinity (hook.go lines 311-323): it
iterates over the deep-copied term at index meIdx while deleting from the
live list at index meIdx - mesDeleteCount. Arguments: the copied entries
still to visit, the index of the head entry, the live list, the running
mesDeleteCount, and the kept (backup) entries so far. Returns the live
list, the kept entries, and the final mesDeleteCount. -/
def meStrip (lm : String → String) :
    List NodeSelectorRequirement → Nat → List NodeSelectorRequirement → Nat →
    List NodeSelectorRequirement →
    Option (List NodeSelectorRequirement × List NodeSelectorRequirement × Nat)
  | [], _, live, delCount, kept => some (live, kept, delCount)
  | me :: rest, meIdx, live, delCount, kept =>
    if lm me.key ≠ "" then
      meStrip lm rest (meIdx + 1) live delCount kept
    else
      match goSplice live ((meIdx : Int) - delCount) ((meIdx : Int) - delCount + 1) with
      | none => none
      | some live2 => meStrip lm rest (meIdx + 1) live2 (delCount + 1) (kept ++ [me])

/-- The match-field loop of injectAffinity (hook.go lines 325-337). The
lower slice bound subtracts mesDeleteCount (the final count of the previous
loop) while the upper bound subtracts the running mfsDeleteCount, exactly as
the source does. -/
def mfStrip (lm : String → String) (mesDel : Nat) :
    List NodeSelectorRequirement → Nat → List NodeSelectorRequirement → Nat →
    List NodeSelectorRequirement →
    Option (List NodeSelectorRequirement × List NodeSelectorRequirement)
  | [], _, live, _, kept => some (live, kept)
  | mf :: rest, mfIdx, live, mfsDel, kept =>
    if lm mf.key ≠ "" then
      mfStrip lm mesDel rest (mfIdx + 1) live mfsDel kept
    else
      match goSplice live ((mfIdx : Int) - mesDel) ((mfIdx : Int) - mfsDel + 1) with
      | none => none
      | some live2 => mfStrip lm mesDel rest (mfIdx + 1) live2 (mfsDel + 1) (kept ++ [mf])

/-- One iteration of the term loop of injectAffinity (hook.go lines
308-341): strip the match expressions, then the match fields, and build the
backup term when anything was kept. -/
def stripTerm (lm : String → String) (term : NodeSelectorTerm) :
    Option (NodeSelectorTerm × Option NodeSelectorTerm) :=
  match meStrip lm term.matchExpressions 0 term.matchExpressions 0 [] with
  | none => none
  | some (liveMEs, mes, mesDel) =>
    match mfStrip lm mesDel term.matchFields 0 term.matchFields 0 [] with
    | none => none
    | some (liveMFs, mfs) =>
      some ({ matchExpressions := liveMEs, matchFields := liveMFs },
        if mfs.length ≠ 0 ∨ mes.length ≠ 0 then
          some { matchFields := mfs, matchExpressions := mes }
        else none)

/-- The term loop over all terms, collecting the live terms (in place) and
the kept backup terms. -/
def stripTerms (lm : String → String) :
    List NodeSelectorTerm → Option (List NodeSelectorTerm × List NodeSelectorTerm)
  | [] => some ([], [])
  | t :: rest =>
    match stripTerm lm t with
    | none => none
    | some (lt, bt) =>
      match stripTerms lm rest with
      | none => none
      | some (lts, bts) =>
        some (lt :: lts, match bt with
          | some b => b :: bts
          | none => bts)

/-- injectAffinity (hook.go lines 291-362). The function mutates the live
affinity through the required pointer and returns the backup affinity; the
model returns the pair (live affinity after mutation, backup), and none
models the runtime panic of the deletion loops. -/
def injectAffinity (affinity : Affinity) (ignoreLabels : List String) :
    Option (Affinity × Option Affinity) :=
  let lm := labelMapLookup ignoreLabels
  match affinity.nodeAffinity with
  | none => some (affinity, none)
  | some na =>
    match na.requiredDuringSchedulingIgnoredDuringExecution with
    | none => some (affinity, none)
    | some required =>
      match stripTerms lm required.nodeSelectorTerms with
      | none => none
      | some (liveTerms, backupTerms) =>
        let filteredTerms := liveTerms.filter
          (fun t => !(t.matchFields.isEmpty && t.matchExpressions.isEmpty))
        let required2 : Option NodeSelector :=
          if filteredTerms.length = 0 then none
          else some { nodeSelectorTerms := filteredTerms }
        let na2 := { na with requiredDuringSchedulingIgnoredDuringExecution := required2 }
        let live := { affinity with nodeAffinity := some na2 }
        let backup : Option Affinity :=
          if backupTerms.length = 0 then none
          else some
            { nodeAffinity := some
                { requiredDuringSchedulingIgnoredDuringExecution :=
                    some { nodeSelectorTerms := backupTerms },
                  preferredDuringSchedulingIgnoredDuringExecution := [] },
              podAffinity := none, podAntiAffinity := none }
        some (live, backup)

/-- The affinity obtained from an affinity by replacing only the required
node-affinity field (when a node affinity is present at all) and keeping
every other field: the shape the frame claims compare against. -/
def setRequired (aff : Affinity) (optReq : Option NodeSelector) : Affinity :=
  { aff with
      nodeAffinity := aff.nodeAffinity.map
        (fun na => { na with requiredDuringSchedulingIgnoredDuringExecution := optReq }) }

/-- Whatever injectAffinity does to the live affinity, it only rewrites the
required node-affinity field: pod affinity, pod anti-affinity and the
preferred terms are carried over unchanged. -/
theorem injectAffinity_shape (aff : Affinity) (keys : List String)
    (live : Affinity) (backup : Option Affinity)
    (h : injectAffinity aff keys = some (live, backup)) :
    ∃ optReq, live = setRequired aff optReq := by
  obtain ⟨naOpt, pa, paa⟩ := aff
  cases naOpt with
  | none =>
    simp only [injectAffinity, Option.some.injEq, Prod.mk.injEq] at h
    refine ⟨none, ?_⟩
    rw [← h.1]
    rfl
  | some na =>
    obtain ⟨reqOpt, pref⟩ := na
    cases reqOpt with
    | none =>
      simp only [injectAffinity, Option.some.injEq, Prod.mk.injEq] at h
      refine ⟨none, ?_⟩
      rw [← h.1]
      rfl
    | some required =>
      simp only [injectAffinity] at h
      cases hst : stripTerms (labelMapLookup keys) required.nodeSelectorTerms with
      | none =>
        rw [hst] at h
        cases h
      | some p =>
        obtain ⟨liveTerms, backupTerms⟩ := p
        rw [hst] at h
        simp only [Option.some.injEq, Prod.mk.injEq] at h
        exact ⟨_, h.1.symm⟩

/-! ## The constraint rewriter entry point (hook.go lines 206-237, 379-383) -/

/-- skipInject (hook.go lines 379-383): nothing to rewrite when the pod has
no node selector entries, no affinity and a nil toleration slice. -/
def skipInject (pod : Pod) : Bool :=
  (pod.spec.nodeSelector.getD []).isEmpty
    && pod.spec.affinity.isNone
    && pod.spec.tolerations.isNone

/-- inject (hook.go lines 206-237). The affinity rewrite runs first (when an
affinity is present), then the node-selector rewrite (when a selector map is
present), then the backup payload is serialized into the well-known
annotation, and finally the toleration list is normalized. The json.Marshal
error branch of line 228 is unreachable for this payload type and has no
counterpart here; none models the panic of the affinity rewrite. -/
def inject (pod : Pod) (ignoreKeys : List String) : Option Pod :=
  if skipInject pod then some pod
  else
    let affStep : Option (Pod × Option Affinity) :=
      match pod.spec.affinity with
      | none => some (pod, none)
      | some aff =>
        match injectAffinity aff ignoreKeys with
        | none => none
        | some (liveAff, backup) =>
          some ({ pod with spec := { pod.spec with affinity := some liveAff } }, backup)
    match affStep with
    | none => none
    | some (pod1, affinityBackup) =>
      let nsStep : Pod × List (String × String) :=
        match pod1.spec.nodeSelector with
        | none => (pod1, [])
        | some ns =>
          let p := injectNodeSelector ns ignoreKeys
          ({ pod1 with spec := { pod1.spec with nodeSelector := some p.1 } }, p.2)
      let pod2 := nsStep.1
      let cns : ClustersNodeSelection :=
        { nodeSelector := nsStep.2, affinity := affinityBackup,
          tolerations := pod2.spec.tolerations }
      let newAnnos := annoSet (pod2.meta.annotations.getD []) SelectorKey (AnnoVal.cns cns)
      let pod3 := { pod2 with meta := { pod2.meta with annotations := some newAnnos } }
      some { pod3 with spec := { pod3.spec with tolerations := some (getPodTolerations pod3) } }

/-! ## Webhook server collaborators -/

/-- webhookServer (hook.go lines 65-69): the static ignore keys and the
external persistent-volume-claim lookup (spec section 6). -/
structure WebhookServer where
  ignoreSelectorKeys : List String
  pvcLister : String → String → Option PersistentVolumeClaim

/-- getNodeNameFromPVC (hook.go lines 194-204): every lookup failure (claim
not found, nil annotations, absent key) returns the empty string. -/
def getNodeNameFromPVC (whsvr : WebhookServer) (ns pvcName : String) : String :=
  match whsvr.pvcLister ns pvcName with
  | none => ""
  | some pvc =>
    match pvc.annotations with
    | none => ""
    | some m => mapLookup m SelectedNodeKey

/-- The volume loop of trySetNodeName (hook.go lines 179-190): skip volumes
without a claim source, and keep scanning while lookups return the empty
string; the first nonempty lookup wins. -/
def trySetLoop (whsvr : WebhookServer) (ns : String) : List Volume → Option String
  | [] => none
  | v :: rest =>
    match v.persistentVolumeClaim with
    | none => trySetLoop whsvr ns rest
    | some src =>
      let nodeName := getNodeNameFromPVC whsvr ns src.claimName
      if nodeName ≠ "" then some nodeName else trySetLoop whsvr ns rest

/-- trySetNodeName (hook.go lines 174-192). -/
def trySetNodeName (whsvr : WebhookServer) (pod : Pod) : Pod :=
  match pod.spec.volumes with
  | none => pod
  | some vols =>
    match trySetLoop whsvr pod.meta.namespaceName vols with
    | some n => { pod with spec := { pod.spec with nodeName := n } }
    | none => pod

/-! ## Frozen-node registry

Modelled from the spec: util.UnschedulableCache is not part of src/. Spec
section 4.4: record(owner, node) is an idempotent add of node to the set of
the owner, and freezeNodes(owner) returns that set, empty for an unknown
owner. hook.go calls Add(node, ref) with the node first. The registry is
carried as a list of (owner, node) pairs.
-/

abbrev FreezeCache := List (String × String)

def cacheAdd (cache : FreezeCache) (node ref : String) : FreezeCache :=
  if cache.contains (ref, node) then cache else cache ++ [(ref, node)]

def cacheGetFreezeNodes (cache : FreezeCache) (ref : String) : List String :=
  (cache.filter (fun p => p.1 == ref)).map (fun p => p.2)

/-- getOwnerRef (hook.go lines 385-391): the UID of the first owner
reference, or "" without owners. -/
def getOwnerRef (pod : Pod) : String :=
  match pod.meta.ownerReferences with
  | [] => ""
  | r :: _ => r

/-- setUnschedulableNodes (hook.go lines 393-405), acting on the registry. -/
def setUnschedulableNodes (ref : String) (pod : Pod) (cache : FreezeCache) : FreezeCache :=
  if ref = "" then cache
  else
    let node := podAnnoString pod "unschedulable-node"
    if node ≠ "" then cacheAdd cache node ref else cache

/-- getUnschedulableNodes (hook.go lines 407-418). -/
def getUnschedulableNodes (cache : FreezeCache) (ref : String) (pod : Pod) : List String :=
  if ref = "" then []
  else if pod.spec.nodeName ≠ "" then []
  else cacheGetFreezeNodes cache ref

/-! ## Eligibility (hook.go lines 364-377) -/

/-- Modelled from the spec: util.IsVirtualPod is not part of src/; per the
spec the pod carries the virtual-pod marker label set to "true". -/
def isVirtualPod (pod : Pod) : Bool :=
  podLabelValue pod VirtualPodKey == "true"

/-- shouldSkip (hook.go lines 364-377). Note that the two label checks run
only when the label map is non-nil, exactly as in the source. -/
def shouldSkip (pod : Pod) : Bool :=
  if pod.meta.namespaceName == "kube-system" then true
  else
    match pod.meta.labels with
    | none => false
    | some ls =>
      if mapLookup ls CreatedbyDescheduler == "true" then true
      else if !isVirtualPod pod then true
      else false

/-! ## Frozen-node exclusion rewrite

Modelled from the spec: util.ReplacePodNodeNameNodeAffinity is not part of
src/. Spec section 4.1 (CREATE): rewrite the node affinity of the clone to
exclude the frozen node names, as an anti-affinity not-in match on the
node-name field, merged with - not replacing - any existing required terms.
-/

def nodeNameExclusion (nodes : List String) : NodeSelectorRequirement :=
  { key := "metadata.name", operator := "NotIn", values := nodes }

def replacePodNodeNameNodeAffinity (aff : Option Affinity) (nodes : List String) :
    Option Affinity :=
  let freshTerm : NodeSelectorTerm :=
    { matchExpressions := [], matchFields := [nodeNameExclusion nodes] }
  match aff with
  | none =>
    let na : NodeAffinity :=
      { requiredDuringSchedulingIgnoredDuringExecution :=
          some { nodeSelectorTerms := [freshTerm] },
        preferredDuringSchedulingIgnoredDuringExecution := [] }
    some { nodeAffinity := some na, podAffinity := none, podAntiAffinity := none }
  | some a =>
    let na : NodeAffinity :=
      match a.nodeAffinity with
      | none =>
        { requiredDuringSchedulingIgnoredDuringExecution := none,
          preferredDuringSchedulingIgnoredDuringExecution := [] }
      | some na => na
    let terms : List NodeSelectorTerm :=
      match na.requiredDuringSchedulingIgnoredDuringExecution with
      | none => [freshTerm]
      | some req => req.nodeSelectorTerms.map
          (fun t => { t with matchFields := t.matchFields ++ [nodeNameExclusion nodes] })
    let merged : Option NodeSelector := some { nodeSelectorTerms := terms }
    let na2 := { na with requiredDuringSchedulingIgnoredDuringExecution := merged }
    some { a with nodeAffinity := some na2 }

/-! ## The admission decision engine (hook.go lines 85-147) -/

/-- The subset of metav1.Status the code writes. -/
structure StatusResult where
  code : Int
  message : String
deriving DecidableEq, Repr

deriving instance DecidableEq for Except

/-- The admission request: resource kind, operation, and the outcome of
unmarshalling the raw object bytes (an error value models bytes that do not
parse; unmarshalling itself is external machinery). -/
structure AdmissionRequest where
  kind : String
  operation : String
  object : Except String Pod
deriving DecidableEq, Repr

/-- The admission response fields the code writes. The patch is the pair of
pods handed to the external diff collaborator (spec section 6), which for
pods never fails; a present pair means the response carries a patch and a
patch type. -/
structure AdmissionResponse where
  allowed : Bool
  result : Option StatusResult
  patch : Option (Pod × Pod)
  patchType : Option String
deriving DecidableEq, Repr

def jsonPatchType : String := "JSONPatch"

/-- mutate (hook.go lines 85-147), threading the frozen-node registry as
explicit state. none models the panic of the affinity rewrite propagating
out of inject. The Go zero value of AdmissionResponse.Allowed is false, so
the unmarshal-failure response of lines 97-101 denies; the default case of
the operation switch (line 127) only logs and falls through to the common
tail, as in the source. -/
def mutate (whsvr : WebhookServer) (cache : FreezeCache) (ar : AdmissionRequest) :
    Option (AdmissionResponse × FreezeCache) :=
  if ar.kind = "Pod" then
    match ar.object with
    | Except.error msg =>
      some ({ allowed := false, result := some { code := 0, message := msg },
              patch := none, patchType := none }, cache)
    | Except.ok pod =>
      if shouldSkip pod then
        some ({ allowed := true, result := none, patch := none, patchType := none }, cache)
      else
        let ref := getOwnerRef pod
        if ar.operation = "UPDATE" then
          some ({ allowed := true, result := none, patch := none, patchType := none },
            setUnschedulableNodes ref pod cache)
        else
          let clone :=
            if ar.operation = "CREATE" then
              let nodes := getUnschedulableNodes cache ref pod
              if nodes.length > 0 then
                { pod with spec :=
                    { pod.spec with affinity :=
                        replacePodNodeNameNodeAffinity pod.spec.affinity nodes } }
              else pod
            else pod
          let clone2 := trySetNodeName whsvr clone
          match inject clone2 whsvr.ignoreSelectorKeys with
          | none => none
          | some clone3 =>
            some ({ allowed := true, result := some { code := 0, message := "" },
                    patch := some (pod, clone3), patchType := some jsonPatchType }, cache)
  else
    some ({ allowed := false, result := none, patch := none, patchType := none }, cache)

/-! ## Toleration normalization facts -/

theorem canonicalFor_key (t : Toleration) : (canonicalFor t).key = t.key := by
  unfold canonicalFor
  by_cases h1 : t.key = TaintNodeNotReady
  · simp [beq_iff_eq, h1, defaultNotReadyToleration]
  · by_cases h2 : t.key = TaintNodeUnreachable
    · simp [beq_iff_eq, h1, h2, defaultUnreachableToleration, taintKeysDistinct]
    · simp [beq_iff_eq, h1, h2]

theorem getPodTolerations_normal_form (pod : Pod) :
    getPodTolerations pod = tolerationNormalizeSpec (pod.spec.tolerations.getD []) := by
  unfold getPodTolerations tolerationNormalizeSpec
  rw [tolProcess_eq]
  cases ha : (pod.spec.tolerations.getD []).any (fun t => t.key == TaintNodeNotReady) <;>
  cases hb : (pod.spec.tolerations.getD []).any (fun t => t.key == TaintNodeUnreachable) <;>
  simp [addDefaultPodTolerations, ha, hb]

theorem countP_key_map_canonical (ts : List Toleration) (K : String) :
    (ts.map canonicalFor).countP (fun t => t.key == K)
      = ts.countP (fun t => t.key == K) := by
  rw [List.countP_map]
  apply List.countP_congr
  intro a _
  simp [Function.comp, canonicalFor_key]

theorem countP_key_eq_zero_of_any_false (ts : List Toleration) (K : String)
    (h : ts.any (fun t => t.key == K) = false) :
    ts.countP (fun t => t.key == K) = 0 := by
  rw [List.countP_eq_zero]
  intro a ha
  intro hk
  have hall : ts.any (fun t => t.key == K) = true := List.any_eq_true.mpr ⟨a, ha, hk⟩
  rw [hall] at h
  exact Bool.noConfusion h

theorem countP_key_pos_of_any_true (ts : List Toleration) (K : String)
    (h : ts.any (fun t => t.key == K) = true) :
    0 < ts.countP (fun t => t.key == K) := by
  obtain ⟨a, ha, hk⟩ := List.any_eq_true.mp h
  apply Nat.pos_of_ne_zero
  intro h0
  rw [List.countP_eq_zero] at h0
  exact h0 a ha hk

theorem normalize_count_notReady (ts : List Toleration)
    (h : ts.countP (fun t => t.key == TaintNodeNotReady) ≤ 1) :
    (tolerationNormalizeSpec ts).countP (fun t => t.key == TaintNodeNotReady) = 1 := by
  unfold tolerationNormalizeSpec
  rw [List.countP_append, List.countP_append, countP_key_map_canonical]
  have hB : ∀ b : Bool, (if b then ([] : List Toleration) else [defaultUnreachableToleration]).countP
      (fun t => t.key == TaintNodeNotReady) = 0 := by
    intro b
    cases b <;> simp [List.countP_cons] <;> decide
  cases ha : ts.any (fun t => t.key == TaintNodeNotReady) with
  | false =>
    rw [countP_key_eq_zero_of_any_false ts TaintNodeNotReady ha]
    rw [hB]
    simp [List.countP_cons]
    decide
  | true =>
    have h1 := countP_key_pos_of_any_true ts TaintNodeNotReady ha
    rw [Nat.le_antisymm h h1]
    rw [hB]
    simp

theorem normalize_count_unreachable (ts : List Toleration)
    (h : ts.countP (fun t => t.key == TaintNodeUnreachable) ≤ 1) :
    (tolerationNormalizeSpec ts).countP (fun t => t.key == TaintNodeUnreachable) = 1 := by
  unfold tolerationNormalizeSpec
  rw [List.countP_append, List.countP_append, countP_key_map_canonical]
  have hA : ∀ b : Bool, (if b then ([] : List Toleration) else [defaultNotReadyToleration]).countP
      (fun t => t.key == TaintNodeUnreachable) = 0 := by
    intro b
    cases b <;> simp [List.countP_cons] <;> decide
  cases ha : ts.any (fun t => t.key == TaintNodeUnreachable) with
  | false =>
    rw [countP_key_eq_zero_of_any_false ts TaintNodeUnreachable ha]
    rw [hA]
    simp [List.countP_cons]
    decide
  | true =>
    have h1 := countP_key_pos_of_any_true ts TaintNodeUnreachable ha
    rw [Nat.le_antisymm h h1]
    rw [hA]
    simp

/-- Every entry of the normalized list whose key is one of the well-known
taint keys is the corresponding canonical default. -/
theorem normalize_all_canonical (ts : List Toleration) :
    (tolerationNormalizeSpec ts).all (fun t =>
      (!(t.key == TaintNodeNotReady) || decide (t = defaultNotReadyToleration)) &&
      (!(t.key == TaintNodeUnreachable) || decide (t = defaultUnreachableToleration))) = true := by
  rw [List.all_eq_true]
  intro t ht
  unfold tolerationNormalizeSpec at ht
  rw [List.mem_append, List.mem_append] at ht
  rcases ht with (ht | ht) | ht
  · rw [List.mem_map] at ht
    obtain ⟨s, _, rfl⟩ := ht
    by_cases h1 : s.key = TaintNodeNotReady
    · have hc : canonicalFor s = defaultNotReadyToleration := by
        unfold canonicalFor
        simp [beq_iff_eq, h1]
      rw [hc]
      decide
    · by_cases h2 : s.key = TaintNodeUnreachable
      · have hc : canonicalFor s = defaultUnreachableToleration := by
          unfold canonicalFor
          simp [beq_iff_eq, h1, h2, taintKeysDistinct]
        rw [hc]
        decide
      · have hc : canonicalFor s = s := by
          unfold canonicalFor
          simp [beq_iff_eq, h1, h2]
        rw [hc]
        simp [beq_iff_eq, h1, h2]
  · split at ht
    · cases ht
    · rw [List.mem_singleton] at ht
      subst ht
      decide
  · split at ht
    · cases ht
    · rw [List.mem_singleton] at ht
      subst ht
      decide

/-- C6: for every toleration list, normalization walks the list once in
order, replaces an entry whose key is one of the two well-known taint keys
by the canonical default for that key (overriding operator and effect),
passes every other entry through unchanged in its original position, and
appends the canonical default of each unseen well-known key at the end,
not-ready before unreachable. Stated as: getPodTolerations equals the
one-pass map-and-append normalization written from those words. -/
theorem c6_toleration_walk (pod : Pod) :
    getPodTolerations pod = tolerationNormalizeSpec (pod.spec.tolerations.getD []) :=
  getPodTolerations_normal_form pod

/-- C2 (amended): for every pod whose toleration list holds at most one
entry per well-known taint key, the normalized list holds exactly one entry
whose key is the not-ready taint and exactly one whose key is the
unreachable taint, and every such entry is the canonical default
(operator Exists, effect NoExecute) - which replaces, rather than
preserves, a differing caller toleration for that key. -/
theorem c2_toleration_invariant (pod : Pod)
    (h1 : (pod.spec.tolerations.getD []).countP (fun t => t.key == TaintNodeNotReady) ≤ 1)
    (h2 : (pod.spec.tolerations.getD []).countP (fun t => t.key == TaintNodeUnreachable) ≤ 1) :
    (getPodTolerations pod).countP (fun t => t.key == TaintNodeNotReady) = 1 ∧
    (getPodTolerations pod).countP (fun t => t.key == TaintNodeUnreachable) = 1 ∧
    (getPodTolerations pod).all (fun t =>
      (!(t.key == TaintNodeNotReady) || decide (t = defaultNotReadyToleration)) &&
      (!(t.key == TaintNodeUnreachable) || decide (t = defaultUnreachableToleration))) = true := by
  rw [getPodTolerations_normal_form]
  exact ⟨normalize_count_notReady _ h1, normalize_count_unreachable _ h2,
    normalize_all_canonical _⟩

/-- A pod carrying two equal caller tolerations for the not-ready key, with
operator Equal and effect NoSchedule. -/
def c2cxPod : Pod :=
  { meta := { name := "p", namespaceName := "default", labels := none,
              annotations := none, ownerReferences := [] },
    spec := { nodeName := "", nodeSelector := none, affinity := none,
              tolerations := some [
                { key := TaintNodeNotReady, operator := "Equal", value := "x",
                  effect := "NoSchedule", tolerationSeconds := none },
                { key := TaintNodeNotReady, operator := "Equal", value := "x",
                  effect := "NoSchedule", tolerationSeconds := none } ],
              volumes := none } }

/-- C2 counterexample: on a pod with two tolerations for the not-ready key,
the normalized list holds two entries with that key, not exactly one, and
the caller toleration, although present in the input, does not survive
untouched. -/
theorem c2_counterexample :
    (getPodTolerations c2cxPod).countP (fun t => t.key == TaintNodeNotReady) = 2 ∧
    { key := TaintNodeNotReady, operator := "Equal", value := "x",
      effect := "NoSchedule", tolerationSeconds := none } ∈ (c2cxPod.spec.tolerations.getD []) ∧
    ¬({ key := TaintNodeNotReady, operator := "Equal", value := "x",
        effect := "NoSchedule", tolerationSeconds := none } ∈ getPodTolerations c2cxPod) := by
  refine ⟨by decide, by decide, by decide⟩

/-- C2 witness: the invariant theorem applied to the empty toleration list. -/
def c2wPod : Pod :=
  { meta := { name := "p", namespaceName := "default", labels := none,
              annotations := none, ownerReferences := [] },
    spec := { nodeName := "", nodeSelector := none, affinity := none,
              tolerations := some [], volumes := none } }

/-- C2 witness: concrete instance of the amended toleration invariant. -/
theorem c2_witness :
    (getPodTolerations c2wPod).countP (fun t => t.key == TaintNodeNotReady) = 1 ∧
    (getPodTolerations c2wPod).countP (fun t => t.key == TaintNodeUnreachable) = 1 ∧
    (getPodTolerations c2wPod).all (fun t =>
      (!(t.key == TaintNodeNotReady) || decide (t = defaultNotReadyToleration)) &&
      (!(t.key == TaintNodeUnreachable) || decide (t = defaultUnreachableToleration))) = true :=
  c2_toleration_invariant c2wPod (by decide) (by decide)

/-! ## C4: the node-selector partition -/

/-- C4 (amended): for every input selector S and every ignore-key set I not
containing the empty string, the live selector after the rewrite equals the
restriction of S to keys in I, the returned backup map equals the
restriction of S to keys not in I, and every key-value pair of S lies in
exactly one of the two. (The source tests membership through a map whose
zero value is the empty string, so an empty-string ignore key is never
honored; the unamended claim fails there.) -/
theorem c4_selector_partition (s : List (String × String)) (ignoreLabels : List String)
    (h : "" ∉ ignoreLabels) :
    (injectNodeSelector s ignoreLabels).1 = s.filter (fun kv => decide (kv.1 ∈ ignoreLabels)) ∧
    (injectNodeSelector s ignoreLabels).2 = s.filter (fun kv => !decide (kv.1 ∈ ignoreLabels)) ∧
    s.all (fun kv => Bool.xor (decide (kv ∈ (injectNodeSelector s ignoreLabels).1))
      (decide (kv ∈ (injectNodeSelector s ignoreLabels).2))) = true := by
  refine ⟨injectNodeSelector_fst s ignoreLabels h, injectNodeSelector_snd s ignoreLabels h, ?_⟩
  rw [List.all_eq_true]
  intro kv hm
  rw [injectNodeSelector_fst s ignoreLabels h, injectNodeSelector_snd s ignoreLabels h]
  by_cases hk : kv.1 ∈ ignoreLabels
  · have h1 : kv ∈ s.filter (fun kv => decide (kv.1 ∈ ignoreLabels)) :=
      List.mem_filter.mpr ⟨hm, by simp [hk]⟩
    have h2 : kv ∉ s.filter (fun kv => !decide (kv.1 ∈ ignoreLabels)) := by
      intro hcon
      have hf := (List.mem_filter.mp hcon).2
      simp [hk] at hf
    simp [h1, h2]
  · have h1 : kv ∉ s.filter (fun kv => decide (kv.1 ∈ ignoreLabels)) := by
      intro hcon
      have hf := (List.mem_filter.mp hcon).2
      simp [hk] at hf
    have h2 : kv ∈ s.filter (fun kv => !decide (kv.1 ∈ ignoreLabels)) :=
      List.mem_filter.mpr ⟨hm, by simp [hk]⟩
    simp [h1, h2]

/-- C4 counterexample: with the ignore set holding the empty-string key and
a selector entry keyed by the empty string, the live selector after the
rewrite is empty although the restriction of S to the keys of I is not;
the entry lands in the backup instead. -/
theorem c4_counterexample :
    (injectNodeSelector [("", "v")] [""]).1 = [] ∧
    [("", "v")].filter (fun kv => decide (kv.1 ∈ ([""] : List String))) = [("", "v")] ∧
    (injectNodeSelector [("", "v")] [""]).2 = [("", "v")] :=
  ⟨by decide, by decide, by decide⟩

/-- The selector of the worked example in the spec. -/
def c4wSelector : List (String × String) := [("zone", "a"), ("gpu", "true")]

/-- C4 witness: the partition theorem at the worked example of the spec
(ignore set gpu). -/
theorem c4_witness :
    (injectNodeSelector c4wSelector ["gpu"]).1
      = c4wSelector.filter (fun kv => decide (kv.1 ∈ ["gpu"])) ∧
    (injectNodeSelector c4wSelector ["gpu"]).2
      = c4wSelector.filter (fun kv => !decide (kv.1 ∈ ["gpu"])) ∧
    c4wSelector.all (fun kv =>
      Bool.xor (decide (kv ∈ (injectNodeSelector c4wSelector ["gpu"]).1))
        (decide (kv ∈ (injectNodeSelector c4wSelector ["gpu"]).2))) = true :=
  c4_selector_partition c4wSelector ["gpu"] (by decide)

/-! ## C3: the affinity rewrite panics on mixed terms -/

/-- An affinity with a single required term carrying one match expression
and one match field, neither key in the ignore set. -/
def c3Affinity : Affinity :=
  { nodeAffinity := some
      { requiredDuringSchedulingIgnoredDuringExecution := some
          { nodeSelectorTerms := [
              { matchExpressions := [{ key := "a", operator := "In", values := ["1"] }],
                matchFields := [{ key := "b", operator := "In", values := ["2"] }] } ] },
        preferredDuringSchedulingIgnoredDuringExecution := [] },
    podAffinity := none, podAntiAffinity := none }

/-- A pod carrying c3Affinity and nothing else. -/
def c3Pod : Pod :=
  { meta := { name := "p", namespaceName := "default", labels := none,
              annotations := none, ownerReferences := [] },
    spec := { nodeName := "", nodeSelector := none, affinity := some c3Affinity,
              tolerations := none, volumes := none } }

/-- C3 (code-bug evaluation): the claim requires the rewrite to remove the
non-ignored match expression and match field of the term and extract both
into the backup; instead, after the match-expression deletion raises
mesDeleteCount to one, the match-field deletion computes its lower slice
bound as mfIdx - mesDeleteCount = -1, a Go slice-bounds panic, modelled as
none for injectAffinity and for the whole rewrite. -/
theorem c3_panic_eval :
    injectAffinity c3Affinity [] = none ∧ inject c3Pod [] = none :=
  ⟨by decide, by decide⟩

/-! ## C5: the rewrite is not idempotent -/

/-- A pod with one non-ignored node-selector entry and nothing else. -/
def c5Pod : Pod :=
  { meta := { name := "p", namespaceName := "default", labels := none,
              annotations := none, ownerReferences := [] },
    spec := { nodeName := "", nodeSelector := some [("a", "v")], affinity := none,
              tolerations := none, volumes := none } }

/-- The value of the backup-constraint annotation of a pod. -/
def selectorAnnoOf (p : Pod) : Option AnnoVal :=
  match p.meta.annotations with
  | none => none
  | some m => annoFind m SelectorKey

/-- C5 (code-bug evaluation): running the rewrite a second time on the
output of the first changes the backup-constraint annotation - the first
pass records the stripped selector entry while the second overwrites the
record with an empty backup and the already-normalized tolerations - so
the state after one pass and after two passes differ, against the claimed
idempotence. The second conjunct shows the second pass did complete. -/
theorem c5_not_idempotent :
    ((inject c5Pod []).map selectorAnnoOf)
      ≠ (((inject c5Pod []).bind (fun p => inject p [])).map selectorAnnoOf) ∧
    ((inject c5Pod []).bind (fun p => inject p [])).isSome = true :=
  ⟨by decide, by decide⟩

/-! ## C9: the volume scan -/

/-- The selected node contributed by one volume, as the amended claim words
it: nothing without a claim source, nothing when the lookup yields the
empty string, and the looked-up node otherwise. -/
def volumeSelectedNode (whsvr : WebhookServer) (ns : String) (v : Volume) : Option String :=
  match v.persistentVolumeClaim with
  | none => none
  | some src =>
    let n := getNodeNameFromPVC whsvr ns src.claimName
    if n = "" then none else some n

/-- trySetNodeName as the amended claim words it: with no volume list the
pod is untouched; otherwise the first volume whose claim lookup yields a
nonempty selected node sets the node name, failed lookups are skipped and
the scan continues, and the pod is untouched when no volume yields one. -/
def trySetNodeNameSpec (whsvr : WebhookServer) (pod : Pod) : Pod :=
  match pod.spec.volumes with
  | none => pod
  | some vols =>
    match vols.findSome? (volumeSelectedNode whsvr pod.meta.namespaceName) with
    | some n => { pod with spec := { pod.spec with nodeName := n } }
    | none => pod

theorem trySetLoop_eq_findSome (whsvr : WebhookServer) (ns : String) (vols : List Volume) :
    trySetLoop whsvr ns vols = vols.findSome? (volumeSelectedNode whsvr ns) := by
  induction vols with
  | nil => rfl
  | cons v rest ih =>
    cases hp : v.persistentVolumeClaim with
    | none => simp [trySetLoop, List.findSome?_cons, volumeSelectedNode, hp, ih]
    | some src =>
      by_cases hn : getNodeNameFromPVC whsvr ns src.claimName = ""
      · simp [trySetLoop, List.findSome?_cons, volumeSelectedNode, hp, hn, ih]
      · simp [trySetLoop, List.findSome?_cons, volumeSelectedNode, hp, hn, ih]

/-- C9 (amended): the Volume-Affinity Resolver scans the volumes in order,
looks up every volume with a persistent-volume-claim source, sets the node
name from the first lookup that yields a nonempty selected-node value and
stops there; a failed lookup (claim not found, no annotations, annotation
absent) is skipped, never an error, and the scan continues with the
remaining volumes; the node name is unchanged when no lookup yields a
value. -/
theorem c9_volume_scan (whsvr : WebhookServer) (pod : Pod) :
    trySetNodeName whsvr pod = trySetNodeNameSpec whsvr pod := by
  cases hv : pod.spec.volumes with
  | none => simp [trySetNodeName, trySetNodeNameSpec, hv]
  | some vols => simp [trySetNodeName, trySetNodeNameSpec, hv, trySetLoop_eq_findSome]

/-- The claim lookup of the C9 counterexample: the first claim exists with
no selected-node annotation, the second carries node-b. -/
def c9Lister : String → String → Option PersistentVolumeClaim := fun _ name =>
  if name == "claim1" then some { annotations := some [] }
  else if name == "claim2" then some { annotations := some [(SelectedNodeKey, "node-b")] }
  else none

def c9Server : WebhookServer := { ignoreSelectorKeys := [], pvcLister := c9Lister }

/-- A pod with two persistent-volume-claim volumes. -/
def c9Pod : Pod :=
  { meta := { name := "p", namespaceName := "default", labels := none,
              annotations := none, ownerReferences := [] },
    spec := { nodeName := "", nodeSelector := none, affinity := none,
              tolerations := none,
              volumes := some [
                { name := "v1", persistentVolumeClaim := some { claimName := "claim1" } },
                { name := "v2", persistentVolumeClaim := some { claimName := "claim2" } } ] } }

/-- C9 counterexample: the first volume with a claim source is claim1, whose
lookup yields nothing; the claim as stated says the remaining volumes are
not consulted and the node name stays unchanged, but the code consults the
second volume and sets the node name to node-b. -/
theorem c9_counterexample :
    getNodeNameFromPVC c9Server "default" "claim1" = "" ∧
    c9Pod.spec.nodeName = "" ∧
    (trySetNodeName c9Server c9Pod).spec.nodeName = "node-b" :=
  ⟨by decide, by decide, by decide⟩

/-! ## Shared concrete webhook server -/

def noopLister : String → String → Option PersistentVolumeClaim := fun _ _ => none

def plainServer : WebhookServer := { ignoreSelectorKeys := [], pvcLister := noopLister }

/-! ## C1: eligibility skip -/

theorem shouldSkip_of_conditions (pod : Pod)
    (h : pod.meta.namespaceName = "kube-system" ∨
      (pod.meta.labels.isSome = true ∧ podLabelValue pod CreatedbyDescheduler = "true") ∨
      (pod.meta.labels.isSome = true ∧ podLabelValue pod VirtualPodKey ≠ "true")) :
    shouldSkip pod = true := by
  unfold shouldSkip
  rcases h with h | ⟨hl, h⟩ | ⟨hl, h⟩
  · simp [beq_iff_eq, h]
  · obtain ⟨ls, hls⟩ := Option.isSome_iff_exists.mp hl
    have h2 : mapLookup ls CreatedbyDescheduler = "true" := by
      simpa [podLabelValue, hls] using h
    rw [hls]
    by_cases hns : pod.meta.namespaceName == "kube-system"
    · simp [hns]
    · simp [hns, beq_iff_eq, h2]
  · obtain ⟨ls, hls⟩ := Option.isSome_iff_exists.mp hl
    have hv : isVirtualPod pod = false := by
      unfold isVirtualPod
      simp [beq_iff_eq, h]
    rw [hls]
    by_cases hns : pod.meta.namespaceName == "kube-system"
    · simp [hns]
    · by_cases hd : mapLookup ls CreatedbyDescheduler == "true"
      · simp [hns, hd]
      · simp [hns, hd, hv]

/-- C1 (amended): for every admission request on a pod that is in
kube-system, or carries the descheduler-created label "true", or carries a
present (non-nil) label map lacking the virtual-pod marker, mutate answers
allowed with no patch and leaves the registry untouched. With a nil label
map the source skips both label checks, so the unamended claim fails; see
the counterexample. -/
theorem c1_skip_response (whsvr : WebhookServer) (cache : FreezeCache)
    (ar : AdmissionRequest) (pod : Pod)
    (hk : ar.kind = "Pod") (hobj : ar.object = Except.ok pod)
    (h : pod.meta.namespaceName = "kube-system" ∨
      (pod.meta.labels.isSome = true ∧ podLabelValue pod CreatedbyDescheduler = "true") ∨
      (pod.meta.labels.isSome = true ∧ podLabelValue pod VirtualPodKey ≠ "true")) :
    mutate whsvr cache ar
      = some ({ allowed := true, result := none, patch := none, patchType := none }, cache) := by
  have hs := shouldSkip_of_conditions pod h
  simp [mutate, hk, hobj, hs]

/-- A pod with a nil label map and one node-selector entry. -/
def c1cxPod : Pod :=
  { meta := { name := "p", namespaceName := "default", labels := none,
              annotations := none, ownerReferences := [] },
    spec := { nodeName := "", nodeSelector := some [("a", "v")], affinity := none,
              tolerations := none, volumes := none } }

def c1cxReq : AdmissionRequest :=
  { kind := "Pod", operation := "CREATE", object := Except.ok c1cxPod }

/-- C1 counterexample: a pod with a nil label map does not carry the
virtual-pod marker and is outside kube-system, yet mutate on its CREATE
request allows with a patch whose endpoints differ - not the claimed
allowed-with-no-patch response. -/
theorem c1_counterexample :
    isVirtualPod c1cxPod = false ∧
    c1cxPod.meta.labels = none ∧
    c1cxPod.meta.namespaceName ≠ "kube-system" ∧
    (mutate plainServer [] c1cxReq).map (fun rc => rc.1.allowed) = some true ∧
    ((mutate plainServer [] c1cxReq).bind (fun rc => rc.1.patch)).map
      (fun ab => decide (ab.1 = ab.2)) = some false :=
  ⟨by decide, by decide, by decide, by decide, by decide⟩

/-- A kube-system pod and its UPDATE request. -/
def c1wPod : Pod :=
  { meta := { name := "p", namespaceName := "kube-system", labels := none,
              annotations := none, ownerReferences := [] },
    spec := { nodeName := "", nodeSelector := none, affinity := none,
              tolerations := none, volumes := none } }

def c1wReq : AdmissionRequest :=
  { kind := "Pod", operation := "UPDATE", object := Except.ok c1wPod }

/-- C1 witness: the skip response at a concrete kube-system pod. -/
theorem c1_witness :
    mutate plainServer [] c1wReq
      = some ({ allowed := true, result := none, patch := none, patchType := none }, []) :=
  c1_skip_response plainServer [] c1wReq c1wPod rfl rfl (Or.inl rfl)

/-! ## C7: the UPDATE path -/

/-- C7: for every UPDATE request on an eligible (non-skipped) pod, mutate
answers allowed with no patch, and the frozen-node registry gains the
(owner, node) pair exactly when the owner identifier is nonempty and the
annotations carry a nonempty unschedulable-node entry; no other state
changes. -/
theorem c7_update_registry (whsvr : WebhookServer) (cache : FreezeCache)
    (ar : AdmissionRequest) (pod : Pod)
    (hk : ar.kind = "Pod") (hobj : ar.object = Except.ok pod)
    (hop : ar.operation = "UPDATE") (hskip : shouldSkip pod = false) :
    mutate whsvr cache ar
      = some ({ allowed := true, result := none, patch := none, patchType := none },
          if getOwnerRef pod ≠ "" ∧ podAnnoString pod "unschedulable-node" ≠ ""
          then cacheAdd cache (podAnnoString pod "unschedulable-node") (getOwnerRef pod)
          else cache) := by
  have hset : setUnschedulableNodes (getOwnerRef pod) pod cache
      = (if getOwnerRef pod ≠ "" ∧ podAnnoString pod "unschedulable-node" ≠ ""
         then cacheAdd cache (podAnnoString pod "unschedulable-node") (getOwnerRef pod)
         else cache) := by
    unfold setUnschedulableNodes
    by_cases h1 : getOwnerRef pod = ""
    · simp [h1]
    · by_cases h2 : podAnnoString pod "unschedulable-node" = ""
      · simp [h1, h2]
      · simp [h1, h2]
  simp [mutate, hk, hobj, hskip, hop, hset]

/-- An eligible virtual pod with an owner and an unschedulable-node entry. -/
def c7wPod : Pod :=
  { meta := { name := "p", namespaceName := "default",
              labels := some [(VirtualPodKey, "true")],
              annotations := some [("unschedulable-node", AnnoVal.str "node-7")],
              ownerReferences := ["uid-1"] },
    spec := { nodeName := "", nodeSelector := none, affinity := none,
              tolerations := none, volumes := none } }

def c7wReq : AdmissionRequest :=
  { kind := "Pod", operation := "UPDATE", object := Except.ok c7wPod }

/-- C7 witness: the UPDATE theorem at a concrete eligible pod. -/
theorem c7_witness :
    mutate plainServer [] c7wReq
      = some ({ allowed := true, result := none, patch := none, patchType := none },
          if getOwnerRef c7wPod ≠ "" ∧ podAnnoString c7wPod "unschedulable-node" ≠ ""
          then cacheAdd [] (podAnnoString c7wPod "unschedulable-node") (getOwnerRef c7wPod)
          else []) :=
  c7_update_registry plainServer [] c7wReq c7wPod rfl rfl rfl (by decide)

/-! ## C8: when the response denies -/

/-- C8 (amended): for every request mutate completes on, the response has
allowed false exactly when the resource kind is not Pod or the raw object
fails to unmarshal, and a denied response carries no patch; no other
condition (diff failure, lookup failure) denies. The unamended claim tied
denial to the kind alone; the parse-failure response also denies because
the Go zero value of Allowed is false - see the counterexample. -/
theorem c8_denial_iff (whsvr : WebhookServer) (cache : FreezeCache) (ar : AdmissionRequest)
    (resp : AdmissionResponse) (cache2 : FreezeCache)
    (h : mutate whsvr cache ar = some (resp, cache2)) :
    (resp.allowed = false ↔ (ar.kind ≠ "Pod" ∨ ar.object.toOption = none)) ∧
    (resp.allowed = false → resp.patch = none) := by
  unfold mutate at h
  by_cases hk : ar.kind = "Pod"
  · rw [if_pos hk] at h
    cases hobj : ar.object with
    | error e =>
      rw [hobj] at h
      simp only [Option.some.injEq, Prod.mk.injEq] at h
      obtain ⟨h1, h2⟩ := h
      subst h1
      simp [hk, hobj, Except.toOption]
    | ok pod =>
      rw [hobj] at h
      simp only [] at h
      by_cases hs : shouldSkip pod
      · rw [if_pos hs] at h
        simp only [Option.some.injEq, Prod.mk.injEq] at h
        obtain ⟨h1, h2⟩ := h
        subst h1
        simp [hk, hobj, Except.toOption]
      · rw [if_neg hs] at h
        by_cases hop : ar.operation = "UPDATE"
        · rw [if_pos hop] at h
          simp only [Option.some.injEq, Prod.mk.injEq] at h
          obtain ⟨h1, h2⟩ := h
          subst h1
          simp [hk, hobj, Except.toOption]
        · rw [if_neg hop] at h
          split at h
          · exact Option.noConfusion h
          · simp only [Option.some.injEq, Prod.mk.injEq] at h
            obtain ⟨h1, h2⟩ := h
            subst h1
            simp [hk, hobj, Except.toOption]
  · rw [if_neg hk] at h
    simp only [Option.some.injEq, Prod.mk.injEq] at h
    obtain ⟨h1, h2⟩ := h
    subst h1
    simp [hk]

def c8cxReq : AdmissionRequest :=
  { kind := "Pod", operation := "CREATE",
    object := Except.error "unexpected end of JSON input" }

/-- C8 counterexample: a Pod-kind request whose raw object fails to parse is
answered with allowed false (the Go zero value), though the claim permits
denial only for a non-Pod kind. -/
theorem c8_counterexample :
    c8cxReq.kind = "Pod" ∧
    (mutate plainServer [] c8cxReq).map (fun rc => rc.1.allowed) = some false ∧
    (mutate plainServer [] c8cxReq).map (fun rc => rc.1.patch) = some none :=
  ⟨by decide, by decide, by decide⟩

def c8wReq : AdmissionRequest :=
  { kind := "Service", operation := "CREATE", object := Except.error "ignored" }

def c8wResp : AdmissionResponse :=
  { allowed := false, result := none, patch := none, patchType := none }

/-- C8 witness: the amended denial characterization at a non-Pod request. -/
theorem c8_witness :
    (c8wResp.allowed = false ↔ (c8wReq.kind ≠ "Pod" ∨ c8wReq.object.toOption = none)) ∧
    (c8wResp.allowed = false → c8wResp.patch = none) :=
  c8_denial_iff plainServer [] c8wReq c8wResp [] (by decide)

/-! ## C10: the rewrite only touches the required node affinity -/

theorem setRequired_self (aff : Affinity) :
    setRequired aff (aff.nodeAffinity.bind
      (fun na => na.requiredDuringSchedulingIgnoredDuringExecution)) = aff := by
  obtain ⟨naOpt, pa, paa⟩ := aff
  cases naOpt with
  | none => rfl
  | some na => cases na; rfl

theorem setRequired_recompute (aff : Affinity) (optReq : Option NodeSelector) :
    setRequired aff ((setRequired aff optReq).nodeAffinity.bind
      (fun na => na.requiredDuringSchedulingIgnoredDuringExecution))
      = setRequired aff optReq := by
  obtain ⟨naOpt, pa, paa⟩ := aff
  cases naOpt with
  | none => rfl
  | some na => rfl

/-- C10: for every pod whose affinity carries pod affinity or pod
anti-affinity, a completed rewrite leaves the live affinity non-nil and
equal to the input affinity with only the required node-affinity field
replaced: pod affinity, pod anti-affinity and the preferred terms are
unchanged. -/
theorem c10_frame (pod : Pod) (keys : List String) (pod2 : Pod) (aff : Affinity)
    (hinj : inject pod keys = some pod2)
    (haff : pod.spec.affinity = some aff)
    (hpa : aff.podAffinity.isSome = true ∨ aff.podAntiAffinity.isSome = true) :
    pod2.spec.affinity = some (setRequired aff
      (pod2.spec.affinity.bind (fun a => a.nodeAffinity.bind
        (fun na => na.requiredDuringSchedulingIgnoredDuringExecution)))) := by
  unfold inject at hinj
  by_cases hs : skipInject pod
  · rw [if_pos hs] at hinj
    simp only [Option.some.injEq] at hinj
    subst hinj
    rw [haff]
    simp only [Option.some_bind]
    rw [setRequired_self]
  · rw [if_neg hs] at hinj
    rw [haff] at hinj
    simp only [] at hinj
    cases hia : injectAffinity aff keys with
    | none =>
      rw [hia] at hinj
      exact Option.noConfusion hinj
    | some pr =>
      obtain ⟨liveAff, backup⟩ := pr
      rw [hia] at hinj
      obtain ⟨optReq, hshape⟩ := injectAffinity_shape aff keys liveAff backup hia
      simp only [Option.some.injEq] at hinj
      subst hinj
      cases hns : pod.spec.nodeSelector with
      | none => simp [hns, hshape, setRequired_recompute]
      | some ns => simp [hns, hshape, setRequired_recompute]

/-- An affinity carrying only pod affinity. -/
def c10Aff : Affinity :=
  { nodeAffinity := none,
    podAffinity := some { requiredTerms := ["t"], preferredTerms := [] },
    podAntiAffinity := none }

/-- A pod whose affinity is c10Aff. -/
def c10Pod : Pod :=
  { meta := { name := "p", namespaceName := "default", labels := none,
              annotations := none, ownerReferences := [] },
    spec := { nodeName := "", nodeSelector := none, affinity := some c10Aff,
              tolerations := none, volumes := none } }

/-- C10 witness: the frame theorem at a concrete pod with pod affinity. -/
theorem c10_witness :
    ((inject c10Pod []).getD c10Pod).spec.affinity = some (setRequired c10Aff
      (((inject c10Pod []).getD c10Pod).spec.affinity.bind (fun a => a.nodeAffinity.bind
        (fun na => na.requiredDuringSchedulingIgnoredDuringExecution)))) :=
  c10_frame c10Pod [] ((inject c10Pod []).getD c10Pod) c10Aff (by decide) (by decide)
    (Or.inl (by decide))

end Hook
